import Mathlib

/-!
Verification of the LivePlace Telegram bot (`bot.py`): a shallow embedding of
the filter engine, the wizard state transitions, the per-user result cursor,
the favorites list and the spreadsheet cache, together with proofs of the
specification claims about them.

Numeric model: Python floats produced by `float(...)` on decimal strings are
modelled exactly, as fractions `num / den` (`Dec` below) that are never
normalised; the code only ever compares such values, and all comparisons are
implemented by cross-multiplication over `ℤ`, which is both exact for decimal
fractions and directly computable.  `Dec.toRat` maps a parsed value to the
rational it denotes, and the claim statements are phrased through it.
Exponent forms (`"1e3"`), `inf`/`nan` and underscore separators are outside
the modelled fragment of `float`; every `float` call site in the embedded
code feeds it strings of digits, dots and at most a sign.  String case
folding (`str.lower`) is modelled on ASCII letters only; all concrete inputs
appearing in the theorems stay inside this fragment.
-/

namespace LivePlace

/-- An exact, unnormalised decimal fraction, the model of a Python float
value `num / den` produced by parsing a decimal literal. -/
structure Dec where
  num : ℤ
  den : ℕ
deriving DecidableEq, Repr

/-- The rational number a `Dec` denotes. -/
def Dec.toRat (x : Dec) : ℚ := (x.num : ℚ) / (x.den : ℚ)

/-- Python `<` on float values (exact, by cross-multiplication). -/
def Dec.Lt (a b : Dec) : Prop := a.num * (b.den : ℤ) < b.num * (a.den : ℤ)

/-- Python `<=` on float values. -/
def Dec.Le (a b : Dec) : Prop := a.num * (b.den : ℤ) ≤ b.num * (a.den : ℤ)

/-- Python `==` on float values (numeric, not structural, equality). -/
def Dec.Eqv (a b : Dec) : Prop := a.num * (b.den : ℤ) = b.num * (a.den : ℤ)

instance (a b : Dec) : Decidable (Dec.Lt a b) :=
  inferInstanceAs (Decidable (_ < _))

instance (a b : Dec) : Decidable (Dec.Le a b) :=
  inferInstanceAs (Decidable (_ ≤ _))

instance (a b : Dec) : Decidable (Dec.Eqv a b) :=
  inferInstanceAs (Decidable (_ = _))

/-- The float value `0.0`. -/
def Dec.zero : Dec := ⟨0, 1⟩

/-- The float value `0.5` (value of the studio synonyms). -/
def Dec.half : Dec := ⟨1, 2⟩

/-- The float value of a natural number literal. -/
def Dec.ofNat (n : ℕ) : Dec := ⟨n, 1⟩

/-- Python `int()` on a float value: truncation toward zero (`Int.tdiv` is
T-division, and `den` is positive for every parsed value). -/
def pyInt (x : Dec) : ℤ := Int.tdiv x.num (x.den : ℤ)

/-- Python `str.strip()` on a list of characters: drop leading and trailing
whitespace. -/
def pyStripL (cs : List Char) : List Char :=
  ((cs.dropWhile Char.isWhitespace).reverse.dropWhile Char.isWhitespace).reverse

/-- Python `str.strip()`. -/
def pyStripS (s : String) : String := String.mk (pyStripL s.data)

/-- Python `str.lower()` (ASCII fragment). -/
def pyLowerS (s : String) : String := String.mk (s.data.map Char.toLower)

/-- Numeric value of a list of decimal digit characters. -/
def natOfDigits (cs : List Char) : ℕ :=
  cs.foldl (fun a c => 10 * a + (c.toNat - 48)) 0

/-- Model of Python `float(s)` on simple decimal literals: optional sign,
digits with at most one dot and at least one digit; everything else raises
`ValueError`, modelled as `none`. -/
def pyFloat? (s : String) : Option Dec :=
  let t := pyStripL s.data
  let su : ℤ × List Char :=
    match t with
    | '-' :: rest => (-1, rest)
    | '+' :: rest => (1, rest)
    | cs => (1, cs)
  let sgn := su.1
  let u := su.2
  if u = [] then none
  else if u.any (fun c => ¬ (c.isDigit ∨ c = '.')) then none
  else if 1 < (u.filter (fun c => c = '.')).length then none
  else if ¬ u.any Char.isDigit then none
  else
    let ip := u.takeWhile (fun c => c ≠ '.')
    let fp := (u.dropWhile (fun c => c ≠ '.')).drop 1
    some ⟨sgn * (natOfDigits ip * 10 ^ fp.length + natOfDigits fp), 10 ^ fp.length⟩

/-- Python `s.replace("+", "")` (single-character pattern, hence a filter). -/
def stripPlus (s : String) : String :=
  String.mk (s.data.filter (fun c => c ≠ '+'))

/-- Python `re.sub(r"[^\d.]", "", s)`: keep digits and dots. -/
def stripDigitsDot (s : String) : String :=
  String.mk (s.data.filter (fun c => c.isDigit ∨ c = '.'))

/-- Python `s or "0"` on a string: replace the empty string by `"0"`. -/
def orZero (s : String) : String := if s = "" then "0" else s

/-- Python `float(re.sub(r"[^\d]", "", s) or "0")`: digit-only strings always
parse, the empty remainder counts as `0`. -/
def digitsVal (s : String) : Dec :=
  ⟨natOfDigits (s.data.filter Char.isDigit), 1⟩

/-- `bot.py` `norm`: strip, lowercase and collapse internal whitespace. -/
def norm (s : String) : String :=
  String.mk (List.intercalate [' ']
    ((((pyStripL s.data).map Char.toLower).splitOnP Char.isWhitespace).filter
      (fun w => w ≠ [])))

/-- Characters kept by `re.sub(r'[^\w\s-]', '', s)`: word characters (ASCII
alphanumerics and underscore, plus the Cyrillic and Georgian blocks used by
the synonym tables), whitespace and dashes. -/
def wordChar (c : Char) : Bool :=
  c.isAlphanum || c = '_' ||
  (0x400 ≤ c.toNat && c.toNat ≤ 0x4FF) ||
  (0x10A0 ≤ c.toNat && c.toNat ≤ 0x10FF)

/-- `bot.py` `norm_mode`: normalise a rent/sale/daily synonym to one of
`"rent"`, `"sale"`, `"daily"`, `""`. -/
def norm_mode (v : String) : String :=
  let s := norm v
  let s := String.mk (s.data.filter (fun c => wordChar c || c.isWhitespace || c = '-'))
  let s := pyStripS s
  if s ∈ ["rent", "аренда", "long", "longterm", "долгосрочно"] then "rent"
  else if s ∈ ["sale", "продажа", "buy", "sell"] then "sale"
  else if s ∈ ["daily", "посуточно", "sutki", "сутки", "short", "shortterm", "day"] then "daily"
  else ""

/-- `bot.py` `parse_rooms`: studio synonyms map to `0.5`; otherwise
`float(s.replace("+",""))`, with parse failure encoded as `-1.0`. -/
def parse_rooms (v : String) : Dec :=
  let s := pyLowerS (pyStripS v)
  if s ∈ ["студия", "studio", "stud", "სტუდიო"] then Dec.half
  else
    match pyFloat? (stripPlus s) with
    | some x => x
    | none => ⟨-1, 1⟩

/-- Listing price parsing used by every price branch of `_filter_rows`:
`float(re.sub(r"[^\d.]", "", str(price) or "0") or 0)`; `none` when the
stripped string is a malformed decimal (the surrounding `except` swallows
the `ValueError`). -/
def parse_price (s : String) : Option Dec :=
  let s1 := if s = "" then "0" else s
  let s2 := stripDigitsDot s1
  if s2 = "" then some Dec.zero else pyFloat? s2

/-- One spreadsheet row, restricted to the fields `_filter_rows` reads.  Each
field is the raw string of the row dictionary (`r.get(key, "")`). -/
structure Row where
  mode : String
  city : String
  district : String
  rooms : String
  price : String
deriving DecidableEq, Repr

instance : Inhabited Row := ⟨⟨"", "", "", "", ""⟩⟩

/-- The query dictionary built by the wizard.  Absent keys are modelled as
`""` for the string fields and `none` for `price_min`/`price_max` (Python's
`q.get(...) is not None` is false both for an absent key and for `None`). -/
structure Criteria where
  mode : String
  city : String
  district : String
  rooms : String
  price : String
  price_min : Option Dec
  price_max : Option Dec
deriving DecidableEq, Repr

/-- Mode check of `ok`: when `q["mode"]` is truthy, exclude rows whose
normalised mode differs. -/
def modeOk (qm rm : String) : Bool :=
  if qm ≠ "" then (if norm_mode rm = norm_mode qm then true else false) else true

/-- City check of `ok`. -/
def cityOk (qc rc : String) : Bool :=
  if qc ≠ "" ∧ pyStripS qc ≠ "" then (if norm rc = norm qc then true else false) else true

/-- District check of `ok`. -/
def districtOk (qd rd : String) : Bool :=
  if qd ≠ "" ∧ pyStripS qd ≠ "" then (if norm rd = norm qd then true else false) else true

/-- Body of the rooms check once the criterion parsed to `need` and the row
value to `hv`: `have < 0` excludes, a criterion containing `"+"` requires
`have >= need`, and otherwise `int(need) == int(have)` is required (with the
redundant explicit studio equality kept from the source). -/
def roomsCheckVal (qr : String) (need hv : Dec) : Bool :=
  if hv.Lt Dec.zero then false
  else if qr.data.contains '+' then (if hv.Lt need then false else true)
  else if pyInt need ≠ pyInt hv ∧ ¬ (need.Eqv Dec.half ∧ hv.Eqv Dec.half) then false
  else true

/-- Rooms check of `ok`: when the criterion is truthy, try to parse it; a
parse failure is swallowed by `except: pass`, applying no constraint. -/
def roomsOk (qr rr : String) : Bool :=
  if qr ≠ "" ∧ pyStripS qr ≠ "" then
    match pyFloat? (stripPlus qr) with
    | none => true
    | some need => roomsCheckVal qr need (parse_rooms rr)
  else true

/-- Explicit `price_min`/`price_max` check, as a function of the parsed row
price (`none` = swallowed parse exception; a parsed `0` passes outright). -/
def explicitPriceCheck (mn mx : Option Dec) (po : Option Dec) : Bool :=
  match po with
  | none => true
  | some p =>
    if p.Eqv Dec.zero then true
    else if (match mn with | some v => decide (p.Lt v) | none => false) then false
    else if (match mx with | some v => decide (v.Lt p) | none => false) then false
    else true

/-- Symbolic range check for criteria containing a dash: split on the first
`-`, parse both sides digit-only (never failing), and apply the
`right == 0` = "left and above" rule with zero-price pass-through. -/
def symbolicDashCheck (qp : String) (po : Option Dec) : Bool :=
  let left := String.mk (qp.data.takeWhile (fun c => c ≠ '-'))
  let right := String.mk ((qp.data.dropWhile (fun c => c ≠ '-')).drop 1)
  let lv := digitsVal left
  let rv : Dec := if right = "" then Dec.zero else digitsVal right
  match po with
  | none => true
  | some p =>
    if p.Eqv Dec.zero then true
    else if rv.Eqv Dec.zero then (if p.Lt lv then false else true)
    else if p.Lt lv ∨ rv.Lt p then false
    else true

/-- Symbolic bare-value check for criteria without a dash: the criterion is a
cap (`p > cap` excluded when `cap > 0`); a malformed cap or row price is a
swallowed exception, passing the row. -/
def symbolicBareCheck (qp : String) (po : Option Dec) : Bool :=
  match po, pyFloat? (orZero (stripDigitsDot qp)) with
  | some p, some cap => if cap.Lt p ∧ Dec.zero.Lt cap then false else true
  | _, _ => true

/-- The literal skip words recognised by the symbolic price branch. -/
def skipWords : List String := ["пропустить", "skip", "გამოტოვება"]

/-- Price check of `ok`: the explicit `price_min`/`price_max` branch takes
priority; otherwise a truthy non-skip `price` string is interpreted
symbolically. -/
def priceOk (qp : String) (mn mx : Option Dec) (rp : String) : Bool :=
  if mn.isSome = true ∨ mx.isSome = true then
    explicitPriceCheck mn mx (parse_price rp)
  else if qp ≠ "" ∧ pyStripS qp ≠ "" ∧ pyLowerS qp ∉ skipWords then
    if qp.data.contains '-' then symbolicDashCheck qp (parse_price rp)
    else symbolicBareCheck qp (parse_price rp)
  else true

/-- The per-row predicate `ok` of `_filter_rows`.  The Python original
returns `False` at the first failing check and `True` at the end; the early
`return True` on a zero parsed price sits in the final (price) check, so the
conjunction of the independent per-field checks is exactly its value. -/
def ok (q : Criteria) (r : Row) : Bool :=
  modeOk q.mode r.mode &&
  cityOk q.city r.city &&
  districtOk q.district r.district &&
  roomsOk q.rooms r.rooms &&
  priceOk q.price q.price_min q.price_max r.price

/-- `bot.py` `_filter_rows`: an order-preserving linear filter by `ok`. -/
def _filter_rows (rows : List Row) (q : Criteria) : List Row :=
  rows.filter (fun r => ok q r)

/-- A criteria mapping with every field empty or absent. -/
def emptyCriteria : Criteria := ⟨"", "", "", "", "", none, none⟩

/-! ### Wizard state machine (`bot.py` conversation handlers) -/

/-- The `Wizard` states of the aiogram FSM, plus the idle state reached by
`state.clear()`. -/
inductive WStep where
  | mode | city | district | rooms | price_method | price_min | price_max | price | idle
deriving DecidableEq, Repr

/-- The criteria fields accumulated in the FSM context by `update_data`. -/
structure WData where
  mode : String
  city : String
  district : String
  rooms : String
  price_min : Option Dec
deriving DecidableEq, Repr

/-- A user's wizard session: current state plus accumulated data. -/
structure WSession where
  step : WStep
  data : WData
deriving DecidableEq, Repr

/-- `T["btn_skip"]` per language. -/
def btn_skip (lang : String) : String :=
  if lang = "ru" then "Пропустить" else if lang = "en" then "Skip" else "გამოტოვება"

/-- `T["btn_standard_ranges"]` per language. -/
def btn_standard_ranges (lang : String) : String :=
  if lang = "ru" then "📊 Стандартные диапазоны"
  else if lang = "en" then "📊 Standard ranges"
  else "📊 სტანდარტული დიაპაზონები"

/-- `T["btn_custom_price"]` per language. -/
def btn_custom_price (lang : String) : String :=
  if lang = "ru" then "✏️ Свой диапазон"
  else if lang = "en" then "✏️ Custom range"
  else "✏️ ჩემი დიაპაზონი"

/-- The skip test used by the wizard handlers:
`text.lower() in {t(lang, "btn_skip").lower(), "пропустить", "skip"}`. -/
def isSkip (lang text : String) : Bool :=
  let l := pyLowerS text
  (l == pyLowerS (btn_skip lang)) || (l == "пропустить") || (l == "skip")

/-- Leading-emoji range of `clean_button_text`
(`[\U0001F300-\U0001F9FF]`). -/
def emojiChar (c : Char) : Bool :=
  0x1F300 ≤ c.toNat && c.toNat ≤ 0x1F9FF

/-- `re.sub(r"\s*\(\d+\)\s*$", "", ·)` on a character list: remove a
trailing parenthesised count together with the whitespace around it. -/
def stripTrailingCount (cs : List Char) : List Char :=
  let r := (cs.reverse).dropWhile Char.isWhitespace
  match r with
  | ')' :: r2 =>
    let ds := r2.takeWhile Char.isDigit
    let r3 := r2.dropWhile Char.isDigit
    match ds, r3 with
    | _ :: _, '(' :: r4 => (r4.dropWhile Char.isWhitespace).reverse
    | _, _ => cs
  | _ => cs

/-- `bot.py` `clean_button_text`: drop a leading emoji/whitespace run, drop a
trailing `" (123)"` count, then strip. -/
def clean_button_text (text : String) : String :=
  let l1 := text.data.dropWhile (fun c => emojiChar c || c.isWhitespace)
  pyStripS (String.mk (stripTrailingCount l1))

/-- `bot.py` `pick_district` (the `Wizard.city` message handler): skip clears
city and district and jumps to the rooms question; otherwise the cleaned city
is stored and the district question is shown only when some listing of the
chosen mode and city has a non-empty district. -/
def pick_district (lang : String) (rows : List Row) (s : WSession) (input : String) :
    WSession :=
  let city_text := pyStripS input
  if isSkip lang city_text then
    ⟨WStep.rooms, { s.data with city := "", district := "" }⟩
  else
    let city := clean_button_text city_text
    let filtered := rows.filter
      (fun r => (norm_mode r.mode == s.data.mode) && (norm r.city == norm city))
    if filtered.any (fun r => !(r.district == "")) then
      ⟨WStep.district, { s.data with city := city }⟩
    else
      ⟨WStep.rooms, { s.data with city := city, district := "" }⟩

/-- `bot.py` `pick_rooms_or_price` (the `Wizard.district` handler): skip
stores an empty district, anything else the cleaned text; then the rooms
question. -/
def pick_rooms_or_price (lang : String) (s : WSession) (input : String) : WSession :=
  let text := pyStripS input
  if isSkip lang text then ⟨WStep.rooms, { s.data with district := "" }⟩
  else ⟨WStep.rooms, { s.data with district := clean_button_text text }⟩

/-- `bot.py` `pick_price_method` (the `Wizard.rooms` handler): skip stores an
empty rooms criterion; otherwise the lowered text, with only the Russian
spelling `"студия"` rewritten to `"0.5"`. -/
def pick_price_method (lang : String) (s : WSession) (input : String) : WSession :=
  let text := pyStripS input
  if isSkip lang text then ⟨WStep.price_method, { s.data with rooms := "" }⟩
  else
    let val0 := pyLowerS (pyStripS text)
    let val := if val0 = "студия" then "0.5" else val0
    ⟨WStep.price_method, { s.data with rooms := val }⟩

/-- `bot.py` `handle_price_method` (the `Wizard.price_method` handler): only
the two method buttons are recognised; any other input (the skip word
included) falls through with no state or data change. -/
def handle_price_method (lang : String) (s : WSession) (input : String) : WSession :=
  let text := pyStripS input
  if text = btn_standard_ranges lang then { s with step := WStep.price }
  else if text = btn_custom_price lang then { s with step := WStep.price_min }
  else s

/-- `bot.py` `handle_price_min`: strip non-numeric characters and parse; a
`ValueError` (skip words included) re-prompts with no state change; a
negative value likewise. -/
def handle_price_min (s : WSession) (input : String) : WSession :=
  let text := pyStripS input
  match pyFloat? (stripDigitsDot text) with
  | none => s
  | some m =>
    if m.Lt Dec.zero then s
    else ⟨WStep.price_max, { s.data with price_min := some m }⟩

/-- The unlimited-price synonyms of `handle_price_max`. -/
def unlimitedWords : List String :=
  ["без ограничений", "без ограничения", "неограниченно", "no limit", "unlimited"]

/-- The query dictionary built by `handle_price_max` (explicit bounds; no
`price` key). -/
def priceMaxQuery (d : WData) (minp : Dec) (mx : Option Dec) : Criteria :=
  ⟨d.mode, pyStripS d.city, pyStripS d.district, pyStripS d.rooms, "", some minp, mx⟩

/-- `bot.py` `handle_price_max`: an unlimited synonym closes the wizard with
no upper bound; otherwise the value must parse, be non-negative and exceed
`price_min`, else the handler re-prompts unchanged.  On success the filter
runs and the state is cleared. -/
def handle_price_max (lang : String) (rows : List Row) (s : WSession) (input : String) :
    WSession × Option (Criteria × List Row) :=
  let text := pyLowerS (pyStripS input)
  let minp := s.data.price_min.getD Dec.zero
  if text ∈ unlimitedWords then
    let q := priceMaxQuery s.data minp none
    (⟨WStep.idle, s.data⟩, some (q, _filter_rows rows q))
  else
    match pyFloat? (stripDigitsDot text) with
    | none => (s, none)
    | some mx =>
      if mx.Lt Dec.zero then (s, none)
      else if mx.Le minp then (s, none)
      else
        let q := priceMaxQuery s.data minp (some mx)
        (⟨WStep.idle, s.data⟩, some (q, _filter_rows rows q))

/-- `bot.py` `show_results_handler` (the `Wizard.price` handler): skip means
an empty symbolic price; the filter always runs and the state is cleared. -/
def show_results_handler (lang : String) (rows : List Row) (s : WSession) (input : String) :
    WSession × (Criteria × List Row) :=
  let text := pyStripS input
  let price := if isSkip lang text then "" else text
  let q : Criteria := ⟨s.data.mode, pyStripS s.data.city, pyStripS s.data.district,
    pyStripS s.data.rooms, pyStripS price, none, none⟩
  (⟨WStep.idle, s.data⟩, (q, _filter_rows rows q))

/-! ### Result cursor (`show_single_ad`, `cb_dislike`, `cb_like`, lead flow) -/

/-- What `show_single_ad` does for a given bundle and cursor: no bundle and
empty rows give menu fallbacks, `cursor >= len` the exhausted message, and
otherwise the card at the cursor is rendered (with `like/dislike/fav`
buttons carrying the cursor index). -/
inductive ShowOutcome where
  | noBundle | emptyRows | exhausted | card (i : ℕ)
deriving DecidableEq, Repr

/-- `bot.py` `show_single_ad`, restricted to its observable outcome. -/
def show_single_ad (bundle : Option (List Row)) (cursor : ℕ) : ShowOutcome :=
  match bundle with
  | none => ShowOutcome.noBundle
  | some rows =>
    if rows = [] then ShowOutcome.emptyRows
    else if rows.length ≤ cursor then ShowOutcome.exhausted
    else ShowOutcome.card cursor

/-- One user's result-cursor state: the current result bundle
(`USER_RESULTS[uid]["rows"]`), the cursor (`USER_CURRENT_INDEX`, default 0),
the indices carried by inline buttons of previously rendered cards (still
clickable after a new search), and a pending lead index
(`USER_LEAD_DATA[uid]["ad_index"]`). -/
structure CursorState where
  results : Option (List Row)
  cursor : ℕ
  rendered : List ℕ
  leadIdx : Option ℕ
deriving DecidableEq, Repr

/-- Length of the current result set (0 when no bundle exists). -/
def lenOf (s : CursorState) : ℕ := (s.results.getD []).length

/-- The cursor-moving operations of `bot.py`:
* `search` — a completed wizard stores a fresh bundle and resets the cursor
  to 0 (old cards keep their buttons);
* `render` — `show_single_ad` sends a card whose buttons carry the cursor;
* `dislike` — `cb_dislike` sets the cursor to `index + 1` with no bounds
  check against the current bundle;
* `like` — `cb_like` validates the index against the current bundle and
  records it as the pending lead;
* `leadDone` — completing the lead form sets the cursor to the recorded
  index plus one. -/
inductive CStep : CursorState → CursorState → Prop where
  | search (s : CursorState) (rows : List Row) :
      CStep s ⟨some rows, 0, s.rendered, s.leadIdx⟩
  | render (s : CursorState)
      (h : show_single_ad s.results s.cursor = ShowOutcome.card s.cursor) :
      CStep s { s with rendered := s.cursor :: s.rendered }
  | dislike (s : CursorState) (i : ℕ) (h : i ∈ s.rendered) :
      CStep s { s with cursor := i + 1 }
  | like (s : CursorState) (i : ℕ) (h : i ∈ s.rendered) (h2 : i < lenOf s) :
      CStep s { s with leadIdx := some i }
  | leadDone (s : CursorState) (i : ℕ) (h : s.leadIdx = some i) :
      CStep s { s with cursor := i + 1, leadIdx := none }

/-- The state of a fresh user (`USER_CURRENT_INDEX.get(uid, 0)`). -/
def initCursor : CursorState := ⟨none, 0, [], none⟩

/-- States reachable through the cursor-moving operations. -/
def ReachableC (s : CursorState) : Prop :=
  Relation.ReflTransGen CStep initCursor s

/-- The cursor operations restricted to callbacks whose index is in range
for the *current* result set (the regime in which the spec's cursor
invariant does hold). -/
inductive CStepFresh : CursorState → CursorState → Prop where
  | search (s : CursorState) (rows : List Row) :
      CStepFresh s ⟨some rows, 0, s.rendered, s.leadIdx⟩
  | render (s : CursorState)
      (h : show_single_ad s.results s.cursor = ShowOutcome.card s.cursor) :
      CStepFresh s { s with rendered := s.cursor :: s.rendered }
  | dislike (s : CursorState) (i : ℕ) (h : i ∈ s.rendered) (hr : i < lenOf s) :
      CStepFresh s { s with cursor := i + 1 }
  | like (s : CursorState) (i : ℕ) (h : i ∈ s.rendered) (h2 : i < lenOf s) :
      CStepFresh s { s with leadIdx := some i }
  | leadDone (s : CursorState) (i : ℕ) (h : s.leadIdx = some i) (hr : i < lenOf s) :
      CStepFresh s { s with cursor := i + 1, leadIdx := none }

/-! ### Favorites (`cb_fav_add`, `cb_fav_del`) -/

/-- One entry of `USER_FAVS[uid]`: the result-set index it was added under
and the row it pointed to. -/
structure FavEntry where
  index : ℕ
  data : Row
deriving DecidableEq, Repr

/-- `bot.py` `cb_fav_add`: reject a missing bundle or an out-of-range index;
otherwise append `{"index": index, "data": row}` unless some entry already
has this index. -/
def cb_fav_add (bundle : Option (List Row)) (favs : List FavEntry) (i : ℕ) :
    List FavEntry :=
  match bundle with
  | none => favs
  | some rows =>
    if rows.length ≤ i then favs
    else if favs.any (fun f => f.index == i) then favs
    else favs ++ [⟨i, rows.getD i default⟩]

/-- `bot.py` `cb_fav_del`: drop every entry whose index equals the callback
index (no bundle check). -/
def cb_fav_del (favs : List FavEntry) (i : ℕ) : List FavEntry :=
  favs.filter (fun f => !(f.index == i))

/-! ### Listing store cache (`load_rows`) -/

/-- The module-level cache: `_cached_rows` and `_cache_ts`. -/
structure CacheState where
  cached : List Row
  ts : ℚ
deriving DecidableEq, Repr

/-- `bot.py` `load_rows` as a function of the cache state, the monotonic
clock, the refresh interval, the outcome the spreadsheet fetch would have
(`Except.error` = the fetch raises) and the `force` flag.  Returns the rows
handed to the caller and the new cache state; the `except` branch returns
`_cached_rows or []` and touches neither global. -/
def load_rows (st : CacheState) (now refresh : ℚ) (fetch : Except Unit (List Row))
    (force : Bool) : List Row × CacheState :=
  if force = false ∧ st.cached ≠ [] ∧ now - st.ts < refresh then (st.cached, st)
  else
    match fetch with
    | Except.ok d => (d, ⟨d, now⟩)
    | Except.error _ => ((if st.cached = [] then [] else st.cached), st)

/-! ### Concrete rows and criteria used by the claims -/

/-- A listing whose only populated field is the price. -/
def rowWithPrice (p : String) : Row := ⟨"", "", "", "", p⟩

/-- A listing whose only populated field is the rooms value. -/
def rowWithRooms (s : String) : Row := ⟨"", "", "", s, ""⟩

/-- The symbolic price criterion `"500-1000"` alone. -/
def q500to1000 : Criteria := ⟨"", "", "", "", "500-1000", none, none⟩

/-- The symbolic price criterion `"1500+"` alone. -/
def q1500plus : Criteria := ⟨"", "", "", "", "1500+", none, none⟩

/-- The rooms criterion `"3+"` alone. -/
def q3plus : Criteria := ⟨"", "", "", "3+", "", none, none⟩

/-- The rooms criterion `"2"` alone. -/
def q2rooms : Criteria := ⟨"", "", "", "2", "", none, none⟩

/-- The rooms criterion `"studio"` (the literal English word) alone. -/
def qStudioWord : Criteria := ⟨"", "", "", "studio", "", none, none⟩

/-! ### Basic facts about the numeric model -/

theorem Dec.lt_iff_toRat {a b : Dec} (ha : 0 < a.den) (hb : 0 < b.den) :
    a.Lt b ↔ a.toRat < b.toRat := by
  have ha' : (0 : ℚ) < (a.den : ℚ) := by exact_mod_cast ha
  have hb' : (0 : ℚ) < (b.den : ℚ) := by exact_mod_cast hb
  rw [Dec.Lt, Dec.toRat, Dec.toRat, div_lt_div_iff₀ ha' hb']
  exact_mod_cast Iff.rfl

theorem Dec.le_iff_toRat {a b : Dec} (ha : 0 < a.den) (hb : 0 < b.den) :
    a.Le b ↔ a.toRat ≤ b.toRat := by
  have ha' : (0 : ℚ) < (a.den : ℚ) := by exact_mod_cast ha
  have hb' : (0 : ℚ) < (b.den : ℚ) := by exact_mod_cast hb
  rw [Dec.Le, Dec.toRat, Dec.toRat, div_le_div_iff₀ ha' hb']
  exact_mod_cast Iff.rfl

theorem Dec.eqv_iff_toRat {a b : Dec} (ha : 0 < a.den) (hb : 0 < b.den) :
    a.Eqv b ↔ a.toRat = b.toRat := by
  have ha' : ((a.den : ℚ)) ≠ 0 := by exact_mod_cast ha.ne'
  have hb' : ((b.den : ℚ)) ≠ 0 := by exact_mod_cast hb.ne'
  rw [Dec.Eqv, Dec.toRat, Dec.toRat, div_eq_div_iff ha' hb']
  exact_mod_cast Iff.rfl

theorem Dec.ofNat_toRat (n : ℕ) : (Dec.ofNat n).toRat = n := by
  simp [Dec.ofNat, Dec.toRat]

theorem Dec.zero_toRat : Dec.zero.toRat = 0 := by
  simp [Dec.zero, Dec.toRat]

theorem Dec.half_toRat : Dec.half.toRat = 1/2 := by
  norm_num [Dec.half, Dec.toRat]

theorem pyFloat?_den_pos {s : String} {x : Dec} (h : pyFloat? s = some x) :
    0 < x.den := by
  rw [pyFloat?] at h
  split at h
  · exact absurd h (by simp)
  · split at h
    · exact absurd h (by simp)
    · split at h
      · exact absurd h (by simp)
      · split at h
        · exact absurd h (by simp)
        · rw [Option.some.injEq] at h
          rw [← h]
          positivity

theorem parse_rooms_den_pos (v : String) : 0 < (parse_rooms v).den := by
  rw [parse_rooms]
  split
  · decide
  · split
    · exact pyFloat?_den_pos (by assumption)
    · decide

theorem parse_price_den_pos {s : String} {x : Dec} (h : parse_price s = some x) :
    0 < x.den := by
  rw [parse_price] at h
  split at h
  · rw [if_neg (by decide : ¬ stripDigitsDot "0" = "")] at h
    exact pyFloat?_den_pos h
  · split at h
    · rw [Option.some.injEq] at h
      rw [← h]
      decide
    · exact pyFloat?_den_pos h

/-! ### Behaviour of the individual price checks -/

theorem explicitPriceCheck_none (mn mx : Option Dec) :
    explicitPriceCheck mn mx none = true := rfl

theorem symbolicDashCheck_none (qp : String) :
    symbolicDashCheck qp none = true := rfl

theorem symbolicBareCheck_none (qp : String) :
    symbolicBareCheck qp none = true := rfl

theorem explicitPriceCheck_zero (mn mx : Option Dec) (p : Dec) (h : p.Eqv Dec.zero) :
    explicitPriceCheck mn mx (some p) = true := by
  simp only [explicitPriceCheck]
  rw [if_pos h]

theorem symbolicDashCheck_zero (qp : String) (p : Dec) (h : p.Eqv Dec.zero) :
    symbolicDashCheck qp (some p) = true := by
  simp only [symbolicDashCheck]
  rw [if_pos h]

theorem symbolicBareCheck_zero (qp : String) (p : Dec) (h : p.Eqv Dec.zero) :
    symbolicBareCheck qp (some p) = true := by
  rcases hc : pyFloat? (orZero (stripDigitsDot qp)) with _ | cap
  · simp only [symbolicBareCheck]
    rw [hc]
  · simp only [symbolicBareCheck]
    rw [hc]
    show (if cap.Lt p ∧ Dec.zero.Lt cap then false else true) = true
    rw [if_neg ?neg]
    case neg =>
      rintro ⟨h1, h2⟩
      rw [Dec.Lt] at h1 h2
      rw [Dec.Eqv] at h
      simp only [Dec.zero] at *
      have hnum : p.num = 0 := by omega
      rw [hnum] at h1
      have hden : (0 : ℤ) ≤ (p.den : ℤ) := Int.natCast_nonneg _
      have hcap : (0 : ℤ) < cap.num := by omega
      nlinarith

theorem priceOk_true_of_zero_price (qp : String) (mn mx : Option Dec) (rp : String)
    (hp : ∀ p, parse_price rp = some p → p.Eqv Dec.zero) :
    priceOk qp mn mx rp = true := by
  unfold priceOk
  rcases hpo : parse_price rp with _ | p
  · split
    · exact explicitPriceCheck_none mn mx
    · split
      · split
        · exact symbolicDashCheck_none qp
        · exact symbolicBareCheck_none qp
      · rfl
  · have hz := hp p hpo
    split
    · exact explicitPriceCheck_zero mn mx p hz
    · split
      · split
        · exact symbolicDashCheck_zero qp p hz
        · exact symbolicBareCheck_zero qp p hz
      · rfl

theorem roomsOk_true_of_unparsable (qr rr : String)
    (hn : pyFloat? (stripPlus qr) = none) : roomsOk qr rr = true := by
  unfold roomsOk
  split
  · rw [hn]
  · rfl

/-! ### The claims -/

/-- C1: a listing whose price field parses to 0 or fails to parse is never
excluded by a price criterion — neither by explicit `price_min`/`price_max`
bounds nor by a symbolic range string; dropping the price criteria entirely
yields the same verdict.  In particular `"500-1000"` excludes a listing
priced 1200 but keeps one priced 0. -/
theorem price_zero_passthrough :
    (∀ (q : Criteria) (r : Row),
        (∀ p, parse_price r.price = some p → p.toRat = 0) →
        priceOk q.price q.price_min q.price_max r.price = true ∧
        ok q r = ok { q with price := "", price_min := none, price_max := none } r) ∧
    _filter_rows [rowWithPrice "1200"] q500to1000 = [] ∧
    _filter_rows [rowWithPrice "0"] q500to1000 = [rowWithPrice "0"] := by
  refine ⟨?_, by decide, by decide⟩
  intro q r hp
  have hp' : ∀ p, parse_price r.price = some p → p.Eqv Dec.zero := by
    intro p hpp
    have hd := parse_price_den_pos hpp
    rw [Dec.eqv_iff_toRat hd (by decide), Dec.zero_toRat]
    exact hp p hpp
  have hmain := priceOk_true_of_zero_price q.price q.price_min q.price_max r.price hp'
  refine ⟨hmain, ?_⟩
  show (modeOk q.mode r.mode && cityOk q.city r.city && districtOk q.district r.district &&
      roomsOk q.rooms r.rooms && priceOk q.price q.price_min q.price_max r.price) =
    (modeOk q.mode r.mode && cityOk q.city r.city && districtOk q.district r.district &&
      roomsOk q.rooms r.rooms && true)
  rw [hmain]

/-- Witness for C1, at the zero-priced listing of the end-to-end scenario. -/
theorem price_zero_passthrough_witness :
    priceOk "500-1000" none none "0" = true ∧
    ok q500to1000 (rowWithPrice "0") =
      ok { q500to1000 with price := "", price_min := none, price_max := none }
        (rowWithPrice "0") := by
  have hzero : ∀ p, parse_price (rowWithPrice "0").price = some p → p.toRat = 0 := by
    intro p hpp
    have he : parse_price (rowWithPrice "0").price = some (⟨0, 1⟩ : Dec) := by decide
    rw [he, Option.some.injEq] at hpp
    rw [← hpp]
    norm_num [Dec.toRat]
  exact price_zero_passthrough.1 q500to1000 (rowWithPrice "0") hzero

/-- C2 counterexample: rooms criterion `"2"` (no `"+"`), listing rooms
`"2.5"`: the parsed values differ (2 versus 2.5), yet the listing is
retained, because the code compares `int()` truncations. -/
theorem rooms_exact_counterexample :
    _filter_rows [rowWithRooms "2.5"] q2rooms = [rowWithRooms "2.5"] ∧
    pyFloat? (stripPlus "2") = some ⟨2, 1⟩ ∧
    (parse_rooms "2.5").toRat ≠ (⟨2, 1⟩ : Dec).toRat := by
  refine ⟨by decide, by decide, ?_⟩
  rw [show parse_rooms "2.5" = ⟨25, 10⟩ from by decide]
  norm_num [Dec.toRat]

/-- C2 amended: with a non-empty, parseable rooms criterion without a `"+"`
suffix, a listing is retained exactly when its parsed room value is
non-negative and agrees with the criterion value after `int()` truncation
(or both values equal 0.5) — not when the two parsed values are exactly
equal. -/
theorem rooms_exact_match_amended (qr : String) (need : Dec) (r : Row)
    (h1 : qr ≠ "") (h2 : pyStripS qr ≠ "")
    (h3 : pyFloat? (stripPlus qr) = some need)
    (h4 : qr.data.contains '+' = false) :
    ok ⟨"", "", "", qr, "", none, none⟩ r = true ↔
      (0 : ℚ) ≤ (parse_rooms r.rooms).toRat ∧
        (pyInt need = pyInt (parse_rooms r.rooms) ∨
          (need.toRat = 1/2 ∧ (parse_rooms r.rooms).toRat = 1/2)) := by
  have hdneed := pyFloat?_den_pos h3
  have hd := parse_rooms_den_pos r.rooms
  have e : ok ⟨"", "", "", qr, "", none, none⟩ r = (roomsOk qr r.rooms && true) := rfl
  rw [e, Bool.and_true]
  unfold roomsOk
  rw [if_pos ⟨h1, h2⟩, h3]
  show roomsCheckVal qr need (parse_rooms r.rooms) = true ↔ _
  unfold roomsCheckVal
  rw [h4, if_neg (by simp : ¬ (false = true))]
  by_cases h0 : (parse_rooms r.rooms).Lt Dec.zero
  · rw [if_pos h0]
    rw [Dec.lt_iff_toRat hd (by decide), Dec.zero_toRat] at h0
    constructor
    · intro hh
      exact absurd hh (by simp)
    · rintro ⟨hge, _⟩
      exact absurd hge (by linarith)
  · rw [if_neg h0]
    rw [Dec.lt_iff_toRat hd (by decide), Dec.zero_toRat] at h0
    push_neg at h0
    by_cases hcond : pyInt need ≠ pyInt (parse_rooms r.rooms) ∧
        ¬ (need.Eqv Dec.half ∧ (parse_rooms r.rooms).Eqv Dec.half)
    · rw [if_pos hcond]
      constructor
      · intro hh
        exact absurd hh (by simp)
      · rintro ⟨_, hor⟩
        rcases hcond with ⟨hne, hnhalf⟩
        rcases hor with heq | ⟨hn2, hh2⟩
        · exact absurd heq hne
        · refine absurd ⟨?_, ?_⟩ hnhalf
          · rw [Dec.eqv_iff_toRat hdneed (by decide), Dec.half_toRat]
            exact hn2
          · rw [Dec.eqv_iff_toRat hd (by decide), Dec.half_toRat]
            exact hh2
    · rw [if_neg hcond]
      push_neg at hcond
      refine ⟨fun _ => ⟨h0, ?_⟩, fun _ => rfl⟩
      by_cases heq : pyInt need = pyInt (parse_rooms r.rooms)
      · exact Or.inl heq
      · have hhalf := hcond heq
        refine Or.inr ⟨?_, ?_⟩
        · rw [← Dec.half_toRat, ← Dec.eqv_iff_toRat hdneed (by decide)]
          exact hhalf.1
        · rw [← Dec.half_toRat, ← Dec.eqv_iff_toRat hd (by decide)]
          exact hhalf.2

/-- Witness for the amended C2: criterion `"2"` retains the `"2.5"`-room
listing through the truncated comparison. -/
theorem rooms_exact_match_amended_witness :
    ok ⟨"", "", "", "2", "", none, none⟩ (rowWithRooms "2.5") = true := by
  refine (rooms_exact_match_amended "2" ⟨2, 1⟩ (rowWithRooms "2.5") (by decide) (by decide)
    (by decide) (by decide)).mpr ⟨?_, Or.inl (by decide)⟩
  rw [show parse_rooms (rowWithRooms "2.5").rooms = ⟨25, 10⟩ from by decide]
  norm_num [Dec.toRat]

/-- C3 counterexample: with the symbolic criterion `"1500+"` (no dash) the
code takes the bare-cap branch: the listing priced 2000 — which the claim
says is retained, its parsed price being at least 1500 — is excluded, and
the listing priced 100 — which the claim says is excluded — is retained. -/
theorem symbolic_plus_counterexample :
    _filter_rows [rowWithPrice "2000"] q1500plus = [] ∧
    _filter_rows [rowWithPrice "100"] q1500plus = [rowWithPrice "100"] ∧
    parse_price "2000" = some ⟨2000, 1⟩ ∧
    parse_price "100" = some ⟨100, 1⟩ ∧
    (1500 : ℚ) ≤ (⟨2000, 1⟩ : Dec).toRat ∧
    ¬ (1500 : ℚ) ≤ (⟨100, 1⟩ : Dec).toRat := by
  refine ⟨by decide, by decide, by decide, by decide, ?_, ?_⟩ <;> norm_num [Dec.toRat]

/-- C3 amended: `"1500+"` contains no dash, so it is parsed as a bare cap of
1500 ("at most this value"): the filter retains exactly the listings whose
parsed price is at most 1500, together with zero-priced and unparsable
ones. -/
theorem symbolic_plus_is_cap :
    (∀ r : Row, ok q1500plus r = true ↔
        (∀ p, parse_price r.price = some p → p.toRat ≤ 1500)) ∧
    (∀ rows : List Row, _filter_rows rows q1500plus =
        rows.filter (fun r =>
          match parse_price r.price with
          | none => true
          | some p => decide (p.toRat ≤ 1500))) := by
  have key : ∀ r : Row, ok q1500plus r = true ↔
      (∀ p, parse_price r.price = some p → p.toRat ≤ 1500) := by
    intro r
    have e : ok q1500plus r = symbolicBareCheck "1500+" (parse_price r.price) := rfl
    rw [e]
    rcases hpp : parse_price r.price with _ | p
    · constructor
      · intro _ p hpz
        exact absurd hpz (by simp)
      · intro _
        rfl
    · have hd := parse_price_den_pos hpp
      have heq : symbolicBareCheck "1500+" (some p) =
          (if (⟨1500, 1⟩ : Dec).Lt p ∧ Dec.zero.Lt (⟨1500, 1⟩ : Dec) then false else true) :=
        rfl
      rw [heq]
      constructor
      · intro hok p' hp'
        rw [Option.some.injEq] at hp'
        rw [← hp']
        by_contra hgt
        push_neg at hgt
        have hlt : (⟨1500, 1⟩ : Dec).Lt p := by
          rw [Dec.lt_iff_toRat (by decide) hd,
            show ((⟨1500, 1⟩ : Dec).toRat) = 1500 from by norm_num [Dec.toRat]]
          exact hgt
        rw [if_pos ⟨hlt, by decide⟩] at hok
        exact absurd hok (by simp)
      · intro hall
        rw [if_neg ?neg]
        case neg =>
          rintro ⟨hlt, _⟩
          rw [Dec.lt_iff_toRat (by decide) hd,
            show ((⟨1500, 1⟩ : Dec).toRat) = 1500 from by norm_num [Dec.toRat]] at hlt
          exact absurd (hall p rfl) (by linarith)
  refine ⟨key, ?_⟩
  intro rows
  unfold _filter_rows
  refine List.filter_congr ?_
  intro r _
  rcases hpp : parse_price r.price with _ | p
  · show ok q1500plus r = true
    refine (key r).mpr ?_
    intro p hp
    rw [hpp] at hp
    exact absurd hp (by simp)
  · show ok q1500plus r = decide (p.toRat ≤ 1500)
    rw [Bool.eq_iff_iff, decide_eq_true_eq, key r]
    constructor
    · intro hall
      exact hall p hpp
    · intro hle p' hp'
      rw [hpp, Option.some.injEq] at hp'
      rw [← hp']
      exact hle

/-- C4: rooms criterion `"3+"` with every other field empty retains exactly
the listings whose parsed room value is at least 3; parse failures are
encoded as -1 and hence excluded. -/
theorem rooms_plus_semantics :
    (∀ r : Row, ok q3plus r = true ↔ (3 : ℚ) ≤ (parse_rooms r.rooms).toRat) ∧
    (∀ rows : List Row, _filter_rows rows q3plus =
        rows.filter (fun r => decide ((3 : ℚ) ≤ (parse_rooms r.rooms).toRat))) := by
  have key : ∀ r : Row, ok q3plus r = true ↔ (3 : ℚ) ≤ (parse_rooms r.rooms).toRat := by
    intro r
    have e : ok q3plus r = (roomsCheckVal "3+" ⟨3, 1⟩ (parse_rooms r.rooms) && true) := rfl
    rw [e, Bool.and_true]
    have hd := parse_rooms_den_pos r.rooms
    have e2 : roomsCheckVal "3+" ⟨3, 1⟩ (parse_rooms r.rooms) =
        (if (parse_rooms r.rooms).Lt Dec.zero then false
         else if (parse_rooms r.rooms).Lt ⟨3, 1⟩ then false else true) := rfl
    rw [e2]
    by_cases h0 : (parse_rooms r.rooms).Lt Dec.zero
    · rw [if_pos h0]
      rw [Dec.lt_iff_toRat hd (by decide), Dec.zero_toRat] at h0
      constructor
      · intro hh
        exact absurd hh (by simp)
      · intro hge
        exact absurd hge (by linarith)
    · rw [if_neg h0]
      by_cases h3 : (parse_rooms r.rooms).Lt ⟨3, 1⟩
      · rw [if_pos h3]
        rw [Dec.lt_iff_toRat hd (by decide),
          show ((⟨3, 1⟩ : Dec).toRat) = 3 from by norm_num [Dec.toRat]] at h3
        constructor
        · intro hh
          exact absurd hh (by simp)
        · intro hge
          exact absurd hge (by linarith)
      · rw [if_neg h3]
        rw [Dec.lt_iff_toRat hd (by decide),
          show ((⟨3, 1⟩ : Dec).toRat) = 3 from by norm_num [Dec.toRat]] at h3
        push_neg at h3
        exact ⟨fun _ => h3, fun _ => rfl⟩
  refine ⟨key, ?_⟩
  intro rows
  unfold _filter_rows
  refine List.filter_congr ?_
  intro r _
  rw [Bool.eq_iff_iff, decide_eq_true_eq]
  exact key r

/-- C5: with every criteria field empty or absent, filtering a one-element
list returns it unchanged. -/
theorem filter_empty_criteria_identity (L : Row) :
    _filter_rows [L] emptyCriteria = [L] := rfl

/-- C10: a rooms criterion that does not parse as a number after removing
`"+"` — for example the literal word `"studio"`, which the wizard leaves
untouched, rewriting only the Russian `"студия"` to `"0.5"` — is silently
ignored: the rooms check constrains nothing, and every listing passes it. -/
theorem unparsable_rooms_criterion_ignored :
    (∀ (q : Criteria) (r : Row), pyFloat? (stripPlus q.rooms) = none →
        roomsOk q.rooms r.rooms = true ∧ ok q r = ok { q with rooms := "" } r) ∧
    (∀ r : Row, ok qStudioWord r = true) ∧
    (∀ s : WSession, (pick_price_method "en" s "studio").data.rooms = "studio" ∧
        (pick_price_method "en" s "студия").data.rooms = "0.5") := by
  refine ⟨?_, fun r => rfl, fun s => ⟨rfl, rfl⟩⟩
  intro q r hn
  have hro := roomsOk_true_of_unparsable q.rooms r.rooms hn
  refine ⟨hro, ?_⟩
  show (modeOk q.mode r.mode && cityOk q.city r.city && districtOk q.district r.district &&
      roomsOk q.rooms r.rooms && priceOk q.price q.price_min q.price_max r.price) =
    (modeOk q.mode r.mode && cityOk q.city r.city && districtOk q.district r.district &&
      true && priceOk q.price q.price_min q.price_max r.price)
  rw [hro]

/-- Witness for C10, at the criterion `"studio"`. -/
theorem unparsable_rooms_witness :
    roomsOk "studio" (rowWithRooms "2").rooms = true ∧
    ok qStudioWord (rowWithRooms "2") =
      ok { qStudioWord with rooms := "" } (rowWithRooms "2") :=
  unparsable_rooms_criterion_ignored.1 qStudioWord (rowWithRooms "2") (by decide)

/-- C6 counterexample: the dedicated skip input is *not* accepted in the
`price_method`, `price_min` and `price_max` states: the session is returned
unchanged (a silent fall-through in `handle_price_method`, a `ValueError`
re-prompt in the two others), with no field set and no progress. -/
theorem skip_at_price_states_counterexample :
    isSkip "en" "skip" = true ∧
    handle_price_method "en" ⟨WStep.price_method, ⟨"rent", "", "", "", none⟩⟩ "skip" =
      ⟨WStep.price_method, ⟨"rent", "", "", "", none⟩⟩ ∧
    handle_price_min ⟨WStep.price_min, ⟨"rent", "", "", "", none⟩⟩ "skip" =
      ⟨WStep.price_min, ⟨"rent", "", "", "", none⟩⟩ ∧
    handle_price_max "en" [] ⟨WStep.price_max, ⟨"rent", "", "", "", some Dec.zero⟩⟩ "skip" =
      (⟨WStep.price_max, ⟨"rent", "", "", "", some Dec.zero⟩⟩, none) :=
  ⟨by decide, rfl, rfl, rfl⟩

/-- C6 amended: the skip input is accepted — the field is set to the empty
wildcard and the wizard proceeds — in the `city`, `district`, `rooms` and
`price` states, but *not* in `price_method` (unrecognised input falls
through), `price_min` or `price_max` (the skip word fails the numeric parse
and re-prompts). -/
theorem skip_handling_amended :
    (∀ (lang : String) (rows : List Row) (s : WSession) (input : String),
        isSkip lang (pyStripS input) = true →
        pick_district lang rows s input =
          ⟨WStep.rooms, { s.data with city := "", district := "" }⟩) ∧
    (∀ (lang : String) (s : WSession) (input : String),
        isSkip lang (pyStripS input) = true →
        pick_rooms_or_price lang s input =
          ⟨WStep.rooms, { s.data with district := "" }⟩) ∧
    (∀ (lang : String) (s : WSession) (input : String),
        isSkip lang (pyStripS input) = true →
        pick_price_method lang s input =
          ⟨WStep.price_method, { s.data with rooms := "" }⟩) ∧
    (∀ (lang : String) (rows : List Row) (s : WSession) (input : String),
        isSkip lang (pyStripS input) = true →
        (show_results_handler lang rows s input).2.1.price = "" ∧
        (show_results_handler lang rows s input).1.step = WStep.idle) ∧
    (∀ s : WSession, handle_price_method "en" s "skip" = s) ∧
    (∀ s : WSession, handle_price_min s "skip" = s) ∧
    (∀ (lang : String) (rows : List Row) (s : WSession),
        handle_price_max lang rows s "skip" = (s, none)) := by
  refine ⟨?_, ?_, ?_, ?_, fun s => rfl, fun s => rfl, fun lang rows s => rfl⟩
  · intro lang rows s input h
    simp only [pick_district]
    rw [h]
    rfl
  · intro lang s input h
    simp only [pick_rooms_or_price]
    rw [h]
    rfl
  · intro lang s input h
    simp only [pick_price_method]
    rw [h]
    rfl
  · intro lang rows s input h
    refine ⟨?_, rfl⟩
    simp only [show_results_handler]
    rw [h]
    rfl

/-- Witness for the amended C6, at the rooms state with the `"Skip"`
button. -/
theorem skip_handling_amended_witness :
    pick_price_method "en" ⟨WStep.rooms, ⟨"rent", "tbilisi", "", "", none⟩⟩ "Skip" =
      ⟨WStep.price_method, ⟨"rent", "tbilisi", "", "", none⟩⟩ :=
  skip_handling_amended.2.2.1 "en" ⟨WStep.rooms, ⟨"rent", "tbilisi", "", "", none⟩⟩
    "Skip" (by decide)

/-- C7 counterexample: browse a two-element result set (rendering cards with
indices 0 and 1), run a new search returning a single listing, then press
dislike on the stale card with index 1: the cursor becomes 2 while the
current result set has length 1 — outside [0, len]. -/
theorem cursor_overrun_counterexample :
    ReachableC ⟨some [rowWithPrice "700"], 2, [1, 0], none⟩ ∧
    lenOf ⟨some [rowWithPrice "700"], 2, [1, 0], none⟩ <
      (⟨some [rowWithPrice "700"], 2, [1, 0], none⟩ : CursorState).cursor := by
  constructor
  · have h1 : CStep initCursor
        ⟨some [rowWithPrice "700", rowWithPrice "700"], 0, [], none⟩ :=
      CStep.search _ _
    have h2 : CStep ⟨some [rowWithPrice "700", rowWithPrice "700"], 0, [], none⟩
        ⟨some [rowWithPrice "700", rowWithPrice "700"], 0, [0], none⟩ :=
      CStep.render _ (by decide)
    have h3 : CStep ⟨some [rowWithPrice "700", rowWithPrice "700"], 0, [0], none⟩
        ⟨some [rowWithPrice "700", rowWithPrice "700"], 1, [0], none⟩ :=
      CStep.dislike _ 0 (by decide)
    have h4 : CStep ⟨some [rowWithPrice "700", rowWithPrice "700"], 1, [0], none⟩
        ⟨some [rowWithPrice "700", rowWithPrice "700"], 1, [1, 0], none⟩ :=
      CStep.render _ (by decide)
    have h5 : CStep ⟨some [rowWithPrice "700", rowWithPrice "700"], 1, [1, 0], none⟩
        ⟨some [rowWithPrice "700"], 0, [1, 0], none⟩ :=
      CStep.search _ _
    have h6 : CStep ⟨some [rowWithPrice "700"], 0, [1, 0], none⟩
        ⟨some [rowWithPrice "700"], 2, [1, 0], none⟩ :=
      CStep.dislike _ 1 (by decide)
    exact Relation.ReflTransGen.tail (Relation.ReflTransGen.tail
      (Relation.ReflTransGen.tail (Relation.ReflTransGen.tail
        (Relation.ReflTransGen.tail (Relation.ReflTransGen.single h1) h2) h3) h4) h5) h6
  · decide

/-- C7 amended: the cursor invariant 0 ≤ cursor ≤ len is preserved by every
operation whose callback index is within the *current* result set; a stale
callback (dislike or lead completion carrying an index from an older,
larger result set) can push the cursor past the length, and
`show_single_ad` answers "exhausted" for every such cursor, so out-of-range
cursors are absorbed rather than raised. -/
theorem cursor_bound_amended :
    (∀ s s' : CursorState, s.cursor ≤ lenOf s → CStepFresh s s' →
        s'.cursor ≤ lenOf s') ∧
    (∀ (rows : List Row) (c : ℕ), rows ≠ [] → rows.length ≤ c →
        show_single_ad (some rows) c = ShowOutcome.exhausted) := by
  constructor
  · intro s s' hinv hstep
    cases hstep with
    | search rows => exact Nat.zero_le _
    | render h => exact hinv
    | dislike i h hr => exact hr
    | like i h h2 => exact hinv
    | leadDone i h hr => exact hr
  · intro rows c hne hlen
    unfold show_single_ad
    show (if rows = [] then ShowOutcome.emptyRows
        else if rows.length ≤ c then ShowOutcome.exhausted else ShowOutcome.card c) =
      ShowOutcome.exhausted
    rw [if_neg hne, if_pos hlen]

/-- Witness for the amended C7: a render step preserves the invariant, and a
far-out cursor yields the exhausted outcome. -/
theorem cursor_bound_amended_witness :
    (⟨some [rowWithPrice "700"], 0, [0], none⟩ : CursorState).cursor ≤
      lenOf ⟨some [rowWithPrice "700"], 0, [0], none⟩ ∧
    show_single_ad (some [rowWithPrice "700"]) 5 = ShowOutcome.exhausted := by
  constructor
  · exact cursor_bound_amended.1 ⟨some [rowWithPrice "700"], 0, [], none⟩
      ⟨some [rowWithPrice "700"], 0, [0], none⟩ (by decide)
      (CStepFresh.render _ (by decide))
  · exact cursor_bound_amended.2 [rowWithPrice "700"] 5 (by decide) (by decide)

/-- C8 counterexample: favorites are keyed by result-set index, not by a
content hash of the listing: the same listing sitting at index 0 of one
result set and index 1 of a later one is added twice, and deleting it under
one index leaves the other entry. -/
theorem favorites_dedup_counterexample :
    cb_fav_add (some [rowWithPrice "700", rowWithPrice "900"])
        (cb_fav_add (some [rowWithPrice "900"]) [] 0) 1 =
      [⟨0, rowWithPrice "900"⟩, ⟨1, rowWithPrice "900"⟩] ∧
    (cb_fav_add (some [rowWithPrice "700", rowWithPrice "900"])
        (cb_fav_add (some [rowWithPrice "900"]) [] 0) 1).map FavEntry.data =
      [rowWithPrice "900", rowWithPrice "900"] ∧
    (cb_fav_del (cb_fav_add (some [rowWithPrice "700", rowWithPrice "900"])
        (cb_fav_add (some [rowWithPrice "900"]) [] 0) 1) 1).map FavEntry.data =
      [rowWithPrice "900"] :=
  ⟨by decide, by decide, by decide⟩

/-- C8 amended: favorites are deduplicated by the index a listing holds in
the current result set: adding the same index twice leaves one entry, and
deleting an index removes every entry carrying it (also one just added) —
but the same listing reachable under two different indices is stored twice
(see the counterexample). -/
theorem favorites_index_dedup_amended :
    (∀ (b : Option (List Row)) (favs : List FavEntry) (i : ℕ),
        cb_fav_add b (cb_fav_add b favs i) i = cb_fav_add b favs i) ∧
    (∀ (favs : List FavEntry) (i : ℕ),
        (cb_fav_del favs i).all (fun f => !(f.index == i)) = true) ∧
    (∀ (b : Option (List Row)) (favs : List FavEntry) (i : ℕ),
        cb_fav_del (cb_fav_add b favs i) i = cb_fav_del favs i) := by
  refine ⟨?_, ?_, ?_⟩
  · intro b favs i
    rcases b with _ | rows
    · rfl
    · by_cases h1 : rows.length ≤ i
      · have e : cb_fav_add (some rows) favs i = favs := by
          simp only [cb_fav_add]
          rw [if_pos h1]
        rw [e]
        exact e
      · by_cases h2 : favs.any (fun f => f.index == i) = true
        · have e : cb_fav_add (some rows) favs i = favs := by
            simp only [cb_fav_add]
            rw [if_neg h1, if_pos h2]
          rw [e]
          exact e
        · have e : cb_fav_add (some rows) favs i =
              favs ++ [⟨i, rows.getD i default⟩] := by
            simp only [cb_fav_add]
            rw [if_neg h1, if_neg h2]
          rw [e]
          simp only [cb_fav_add]
          rw [if_neg h1, if_pos ?app]
          case app =>
            rw [List.any_append]
            simp
  · intro favs i
    rw [List.all_eq_true]
    intro f hf
    rw [cb_fav_del, List.mem_filter] at hf
    exact hf.2
  · intro b favs i
    rcases b with _ | rows
    · rfl
    · by_cases h1 : rows.length ≤ i
      · have e : cb_fav_add (some rows) favs i = favs := by
          simp only [cb_fav_add]
          rw [if_pos h1]
        rw [e]
      · by_cases h2 : favs.any (fun f => f.index == i) = true
        · have e : cb_fav_add (some rows) favs i = favs := by
            simp only [cb_fav_add]
            rw [if_neg h1, if_pos h2]
          rw [e]
        · have e : cb_fav_add (some rows) favs i =
              favs ++ [⟨i, rows.getD i default⟩] := by
            simp only [cb_fav_add]
            rw [if_neg h1, if_neg h2]
          rw [e]
          unfold cb_fav_del
          rw [List.filter_append]
          simp

/-- C9: when the spreadsheet fetch raises, `load_rows` hands the caller the
previous snapshot (the empty list when none exists), never propagates the
exception (it is a total function of the fetch outcome), and leaves the
cached snapshot and its timestamp unchanged — for either value of
`force`. -/
theorem load_rows_fetch_failure (st : CacheState) (now refresh : ℚ) (force : Bool) :
    load_rows st now refresh (Except.error ()) force = (st.cached, st) := by
  unfold load_rows
  split
  · rfl
  · show ((if st.cached = [] then [] else st.cached), st) = (st.cached, st)
    by_cases h : st.cached = []
    · rw [if_pos h, h]
    · rw [if_neg h]

end LivePlace
